import Mathlib

/-!
Verification of `mbed_lstools/lstools_darwin.py` (class `MbedLsToolsDarwin`).

The Python code consumes plist-shaped data (nested dicts, lists, strings,
integers, and Python `None`).  We embed those values as the inductive `PVal`
below and translate each Python function operating on them into a Lean
function, modelling raised exceptions with `Except Unit` and Python `None`
with the `PVal.none` constructor.  Python dicts are embedded as association
lists with unique keys (a Python dict cannot hold duplicate keys); lookups
take the first occurrence, which coincides with dict semantics on such lists.
plist booleans and floats do not occur in any of the code paths under
verification and are left out of the value universe.
-/

/-- Embedding of the Python/plist values the darwin lister manipulates:
`none` is Python `None`, the rest are ints, strings, lists and dicts. -/
inductive PVal where
  | none : PVal
  | int : Int → PVal
  | str : String → PVal
  | list : List PVal → PVal
  | dict : List (String × PVal) → PVal

mutual

/-- Python `==` on embedded values (structural across the types at hand). -/
def PVal.beq : PVal → PVal → Bool
  | .none, .none => true
  | .int a, .int b => a == b
  | .str a, .str b => a == b
  | .list as, .list bs => PVal.beqL as bs
  | .dict as, .dict bs => PVal.beqD as bs
  | _, _ => false

/-- Python `==` on embedded lists. -/
def PVal.beqL : List PVal → List PVal → Bool
  | [], [] => true
  | a :: as, b :: bs => PVal.beq a b && PVal.beqL as bs
  | _, _ => false

/-- Python `==` on embedded dicts (as ordered association lists). -/
def PVal.beqD : List (String × PVal) → List (String × PVal) → Bool
  | [], [] => true
  | (k, a) :: as, (l, b) :: bs => k == l && PVal.beq a b && PVal.beqD as bs
  | _, _ => false

end

instance : BEq PVal := ⟨PVal.beq⟩

/-- Python truthiness for the embedded values (`if x:`):
`None`, `0`, `""`, `[]` and `{}` are falsy, everything else is truthy. -/
def pyTruthy : PVal → Bool
  | .none => false
  | .int n => n != 0
  | .str s => s != ""
  | .list xs => !xs.isEmpty
  | .dict kvs => !kvs.isEmpty

/-! ## The board-name pattern (`mbed_volume_name_match`)

Source line 32: `re.compile(r'(\bmbed\b|\bSEGGER MSD\b)', re.I)`, always used
through `.search` in boolean position.  We model `.search` directly: scan every
position of the string for either alternative, where `\b` demands a word
character on exactly one side (both alternatives start and end with word
characters, so `\b` amounts to "no word character adjacent").  `re` word
characters are `[a-zA-Z0-9_]` (all inputs at hand are ASCII). -/

/-- A regex word character (`\w`): letter, digit or underscore. -/
def isWordChar (c : Char) : Bool := c.isAlphanum || c = '_'

/-- Whether an optional character (the one adjacent to a match candidate)
is a word character; the edge of the string counts as non-word. -/
def wordish : Option Char → Bool
  | some c => isWordChar c
  | Option.none => false

/-- Case-insensitive literal match of `pat` against a prefix of `cs`,
returning the remaining suffix on success. -/
def prefixRestCI : List Char → List Char → Option (List Char)
  | [], cs => some cs
  | _ :: _, [] => Option.none
  | p :: ps, c :: cs => if c.toLower = p.toLower then prefixRestCI ps cs else Option.none

/-- `\b<pat>\b` matched at the current position, where `prev` is the character
just before the position (if any). -/
def matchWordHere (pat : List Char) (prev : Option Char) (cs : List Char) : Bool :=
  !wordish prev &&
    (match prefixRestCI pat cs with
     | some rest => !wordish rest.head?
     | Option.none => false)

/-- The characters of the first alternative, `mbed`. -/
def mbedPat : List Char := ['m', 'b', 'e', 'd']

/-- The characters of the second alternative, `SEGGER MSD`. -/
def seggerPat : List Char := ['S', 'E', 'G', 'G', 'E', 'R', ' ', 'M', 'S', 'D']

/-- `re.search` of the compiled pattern: try both alternatives at the current
position, else advance one character (remembering it as the new `prev`). -/
def reScan (prev : Option Char) (cs : List Char) : Bool :=
  (matchWordHere mbedPat prev cs || matchWordHere seggerPat prev cs) ||
    (match cs with
     | [] => false
     | c :: cs' => reScan (some c) cs')

/-- `self.mbed_volume_name_match.search(s)` in boolean position
(source line 32; used at lines 186 and 247). -/
def mbed_volume_name_match (s : String) : Bool := reScan Option.none s.data

/-! Spec-side reading of the pattern, following the claim's words: the string
contains `mbed` or `SEGGER MSD` as a whole word, case-insensitively. -/

/-- The claim's phrasing: some case-insensitive occurrence of `pat` in `s`
whose neighbouring characters (if any) are not word characters. -/
def containsWordCI (pat : List Char) (s : List Char) : Prop :=
  ∃ a w d, s = a ++ w ++ d ∧ w.map Char.toLower = pat.map Char.toLower ∧
    (∀ x, a.getLast? = some x → isWordChar x = false) ∧
    (∀ y, d.head? = some y → isWordChar y = false)

/-- The character just before the unscanned suffix, after skipping `a`:
the last element of `a` when `a` is nonempty, else the ambient `prev`. -/
def lastOr (prev : Option Char) : List Char → Option Char
  | [] => prev
  | c :: a => lastOr (some c) a

/-- Generalisation of `containsWordCI` used while scanning: `prev` is the
character preceding the still-unscanned suffix `s`. -/
def occursFrom (pat : List Char) (prev : Option Char) (s : List Char) : Prop :=
  ∃ a w d, s = a ++ w ++ d ∧ w.map Char.toLower = pat.map Char.toLower ∧
    (∀ x, lastOr prev a = some x → isWordChar x = false) ∧
    (∀ y, d.head? = some y → isWordChar y = false)

/-! ## Python primitive operations on embedded values -/

/-- Python `needle in hay` on strings: the substring test. -/
def pySubstr (needle : List Char) (hay : List Char) : Bool :=
  needle.isPrefixOf hay ||
    match hay with
    | [] => false
    | _ :: t => pySubstr needle t

/-- Python `'k' in obj` for a string key: key test for dicts, element test for
lists, substring test for strings; raises `TypeError` on ints and `None`. -/
def pyIn (k : String) : PVal → Except Unit Bool
  | .dict kvs => .ok (kvs.any (fun p => p.1 == k))
  | .list xs => .ok (xs.contains (.str k))
  | .str s => .ok (pySubstr k.data s.data)
  | .int _ => .error ()
  | .none => .error ()

/-- Python hashability: lists and dicts cannot be dict keys. -/
def pyHashable : PVal → Bool
  | .list _ => false
  | .dict _ => false
  | _ => true

/-- Python `x[:4]`: defined on strings and lists, raises `TypeError` on the
rest (in particular on `None`, which is how `platform_name(None)` fails). -/
def pySlice4 : PVal → Except Unit PVal
  | .str s => .ok (.str (s.take 4))
  | .list xs => .ok (.list (xs.take 4))
  | _ => .error ()

/-! ## Tree Navigator: `has_children` / `get_children` (source lines 123-131)

`has_children(obj)` is `obj is not None and 'IORegistryEntryChildren' in obj`
(the `child_key` parameter is ignored by the body, which re-tests the literal
key); `get_children(obj)` returns `obj['IORegistryEntryChildren']` when
`has_children` holds and `None` otherwise. -/

/-- `has_children` (source lines 123-126). -/
def has_children (obj : PVal) : Except Unit Bool :=
  match obj with
  | .none => .ok false
  | _ => pyIn "IORegistryEntryChildren" obj

/-- `get_children` (source lines 128-131). -/
def get_children (obj : PVal) : Except Unit PVal :=
  match has_children obj with
  | .error e => .error e
  | .ok true =>
    match obj with
    | .dict kvs =>
      match List.lookup "IORegistryEntryChildren" kvs with
      | some v => .ok v
      | Option.none => .error ()   -- unreachable when has_children returned true
    | _ => .error ()   -- obj['IORegistryEntryChildren'] on a list/str raises TypeError
  | .ok false => .ok .none

/-- Spec-side shape test from claim C9: a mapping containing the designated
child-collection key. -/
def isMappingWithChildKey : PVal → Prop
  | .dict kvs => "IORegistryEntryChildren" ∈ kvs.map Prod.fst
  | _ => False

/-! ## `find_tty` (source lines 233-241)

`find_tty` returns `obj['IODialinDevice']` when `obj` is a dict carrying that
key, otherwise recurses through `get_children(obj)` while `has_children(obj)`
holds, and returns `None` when it does not.  Each arm below records which
source test it reflects. -/

mutual

/-- `find_tty` (source lines 233-241). -/
def find_tty (obj : PVal) : Except Unit PVal :=
  match obj with
  | .dict kvs =>
    -- `isinstance(obj, dict) and 'IODialinDevice' in obj` -> `obj['IODialinDevice']`
    match List.lookup "IODialinDevice" kvs with
    | some v => .ok v
    | Option.none =>
      -- `has_children(obj)` -> `find_tty(get_children(obj))`, where
      -- get_children returns the value under the (first) children key
      find_tty_children kvs
  | .none => .ok .none        -- `has_children(None)` is False
  | .list xs =>
    -- membership on a list is an element test; when it succeeds, get_children
    -- does `list['IORegistryEntryChildren']`, which raises TypeError
    if xs.contains (.str "IORegistryEntryChildren") then .error () else .ok .none
  | .str s =>
    -- substring test; indexing a str with a str key raises TypeError
    if pySubstr "IORegistryEntryChildren".data s.data then .error () else .ok .none
  | .int _ => .error ()       -- `in` on an int raises TypeError
termination_by 2 * sizeOf obj
decreasing_by
  all_goals simp_wf
  all_goals omega

/-- The `has_children`/`get_children` step of `find_tty` on a dict without the
dial-in key: recurse into the value under `'IORegistryEntryChildren'` if the
key is present, else return `None`. -/
def find_tty_children (kvs : List (String × PVal)) : Except Unit PVal :=
  match kvs with
  | [] => .ok .none
  | (k, v) :: rest =>
    if k == "IORegistryEntryChildren" then find_tty v else find_tty_children rest
termination_by 2 * sizeOf kvs + 1
decreasing_by
  all_goals simp_wf
  all_goals omega

end

/-! ## `get_disk_id` (source lines 192-199)

The whole scan sits inside `try: ... except: return None`; an entry whose
shape makes the membership tests or the subscript raise therefore aborts the
scan with `None`.  Falling off the loop also returns `None` (implicitly). -/

/-- The `for dev in obj` loop body of `get_disk_id`. -/
def get_disk_id_scan (sn : PVal) : List PVal → PVal
  | [] => .none
  | dev :: rest =>
    match dev with
    | .dict kvs =>
      -- `'serial_num' in dev and 'bsd_name' in dev and dev['serial_num'] == sn`
      match List.lookup "serial_num" kvs, List.lookup "bsd_name" kvs with
      | some s, some b => if PVal.beq s sn then b else get_disk_id_scan sn rest
      | _, _ => get_disk_id_scan sn rest
    | .str s =>
      -- both substring tests may pass, and then `dev['serial_num']` raises
      if pySubstr "serial_num".data s.data && pySubstr "bsd_name".data s.data
      then .none else get_disk_id_scan sn rest
    | .list xs =>
      if xs.contains (.str "serial_num") && xs.contains (.str "bsd_name")
      then .none else get_disk_id_scan sn rest
    | _ => .none   -- `in` on an int/None raises TypeError -> `except: return None`

/-- `get_disk_id` (source lines 192-199): iterate `obj` (a `for` over a dict
yields its keys and over a str its characters; over an int or `None` it raises,
reaching `except: return None`). -/
def get_disk_id (obj sn : PVal) : PVal :=
  match obj with
  | .list xs => get_disk_id_scan sn xs
  | .dict kvs => get_disk_id_scan sn (kvs.map (fun p => PVal.str p.1))
  | .str s => get_disk_id_scan sn (s.data.map (fun c => PVal.str (String.mk [c])))
  | _ => .none

/-- Spec-side lookup from claim C8: linear scan for the first entry carrying
both fields whose serial-number field equals the query; entries lacking the
fields are skipped; absent if none matches. -/
def firstDiskId (sn : PVal) : List PVal → PVal
  | [] => .none
  | dev :: rest =>
    match dev with
    | .dict kvs =>
      match List.lookup "serial_num" kvs, List.lookup "bsd_name" kvs with
      | some s, some b => if PVal.beq s sn then b else firstDiskId sn rest
      | _, _ => firstDiskId sn rest
    | _ => firstDiskId sn rest

/-! ## `filter_system_profiler` (source lines 168-190)

The function normalises its argument to a list, then for every element `o`
with an `_items` key runs the node loop inside `try: ... except: continue`.
Processing node `i` first recurses (`r.extend(filter_system_profiler(i))`)
when `'_items' in i`, then reads `i['_name']`, optionally appends
`' ' + i['manufacturer']`, and collects `i` when the board pattern matches the
search term and `'bsd_name' in i`.  Any exception while processing a node
aborts the remaining nodes of that same `_items` list (the bare `except`),
keeping whatever the loop already appended; `o.keys()` on a non-dict element
raises uncaught and propagates out of the call.

A non-list `_items` value is modelled as the empty node list: iterating an
int or `None` raises inside the `try` (so the list contributes nothing), and
iterating a str or dict yields str nodes whose processing always fails before
anything is appended (either `i['_name']` raises, or the recursive call
raises on `o.keys()`), so those also contribute nothing. -/

/-- Search-term construction and match/collect step for one node whose
`_name` is the string `s` (with `manu` the optional manufacturer string);
`rec` is what the node's recursive call already contributed. -/
def fspCollect (i : PVal) (rec : List PVal) (term : String)
    (hasBsd : Bool) : List PVal × Bool :=
  if mbed_volume_name_match term && hasBsd then (rec ++ [i], true) else (rec, true)

mutual

/-- `filter_system_profiler` (source lines 168-190); `.error` models an
exception propagating out of the call. -/
def filter_system_profiler (obj : PVal) : Except Unit (List PVal) :=
  match obj with
  | .list os => fspList os
  | v => fspOne v   -- `if not isinstance(obj, list): obj = [obj]`
termination_by 8 * sizeOf obj + 4
decreasing_by
  all_goals simp_wf
  all_goals omega

/-- The `for o in obj` loop. -/
def fspList (os : List PVal) : Except Unit (List PVal) :=
  match os with
  | [] => .ok []
  | o :: rest =>
    match fspOne o with
    | .error e => .error e
    | .ok r =>
      match fspList rest with
      | .error e => .error e
      | .ok rs => .ok (r ++ rs)
termination_by 8 * sizeOf os
decreasing_by
  all_goals simp_wf
  all_goals omega

/-- One `o`: iterate `filter(lambda k: k == '_items', o.keys())` and run the
guarded node loop; a non-dict `o` raises at `o.keys()`. -/
def fspOne (o : PVal) : Except Unit (List PVal) :=
  match o with
  | .dict kvs => .ok (fspFind kvs)
  | _ => .error ()
termination_by 8 * sizeOf o + 3
decreasing_by
  all_goals simp_wf
  all_goals omega

/-- Locate the (first) `_items` entry of `o` and run the node loop on it;
a non-list `_items` value contributes nothing (see above). -/
def fspFind (kvs : List (String × PVal)) : List PVal :=
  match kvs with
  | [] => []
  | (k, v) :: rest =>
    if k == "_items" then
      match v with
      | .list xs => fspItems xs
      | _ => []
    else fspFind rest
termination_by 8 * sizeOf kvs + 2
decreasing_by
  all_goals simp_wf
  all_goals omega

/-- The `for i in o['_items']` loop under `try: ... except: continue`:
a failing node keeps its own partial contribution and skips its remaining
siblings. -/
def fspItems (items : List PVal) : List PVal :=
  match items with
  | [] => []
  | i :: rest =>
    match fspNode i with
    | (c, true) => c ++ fspItems rest
    | (c, false) => c
termination_by 8 * sizeOf items
decreasing_by
  all_goals simp_wf
  all_goals omega

/-- Processing of a single node `i`; the Bool is false when an exception was
raised (aborting the sibling loop), and the list is what the node added to
`r` before that point. -/
def fspNode (i : PVal) : List PVal × Bool :=
  match i with
  | .int _ => ([], false)   -- `'_items' in i` raises TypeError
  | .none => ([], false)    -- `'_items' in i` raises TypeError
  | v =>
    let hasItems : Bool :=
      match v with
      | .dict kvs => kvs.any (fun p => p.1 == "_items")
      | .list xs => xs.contains (.str "_items")
      | .str s => pySubstr "_items".data s.data
      | _ => false
    match (if hasItems then filter_system_profiler v else .ok []) with
    | .error _ => ([], false)   -- the recursive call raised before `r.extend`
    | .ok rec =>
      match v with
      | .dict kvs =>
        match List.lookup "_name" kvs with
        | Option.none => (rec, false)   -- KeyError on `i['_name']`
        | some (.str s) =>
          if kvs.any (fun p => p.1 == "manufacturer") then
            match List.lookup "manufacturer" kvs with
            | some (.str m) =>
              fspCollect v rec (s ++ " " ++ m) (kvs.any (fun p => p.1 == "bsd_name"))
            | _ => (rec, false)   -- str + non-str raises TypeError
          else
            fspCollect v rec s (kvs.any (fun p => p.1 == "bsd_name"))
        | some _ => (rec, false)
          -- non-str `_name`: `search_term + ' '` or `search(search_term)` raises
      | _ => (rec, false)   -- `i['_name']` on a list/str raises TypeError
termination_by 8 * sizeOf i + 5
decreasing_by
  all_goals simp_wf

end

/-! ## Device Correlator: `set_mbed_devs` (source lines 229-267)

`set_mbed_devs(obj)` iterates `obj.items()`: a dict-valued entry is recursed
into; otherwise, when the key is one of the three name keys and the value
matches the board pattern, a `usb_info` record is built from the *enclosing*
dict and, when that dict carries a `'USB Serial Number'`, inserted into the
shared result dict `r` under `get_disk_id(mbed_drives, serial)`.  The loop has
no break or early return, so iteration continues after a match.  The shared
`r` is threaded as explicit state; exceptions propagate (there is no handler
around the call, source line 267). -/

/-- `{serial:, vendor_id:, product_id:, tty:}` with Python `None` defaults
(source lines 248-249). -/
structure UsbInfo where
  serial : PVal := .none
  vendor_id : PVal := .none
  product_id : PVal := .none
  tty : PVal := .none

instance : Inhabited UsbInfo := ⟨{}⟩

/-- Python `r[k] = v` on a dict represented as an ordered association list:
update in place when the key exists, else append. -/
def dictSet (r : List (PVal × UsbInfo)) (k : PVal) (v : UsbInfo) :
    List (PVal × UsbInfo) :=
  match r with
  | [] => [(k, v)]
  | (k', v') :: rest =>
    if PVal.beq k' k then (k', v) :: rest else (k', v') :: dictSet rest k v

/-- The three name keys tested at source line 247. -/
def isNameKey (k : String) : Bool :=
  k == "IORegistryEntryName" || k == "kUSBVendorString" || k == "USB Vendor Name"

/-- The body of the matched `elif` branch (source lines 248-263): build
`usb_info` from the enclosing dict `obj`, and insert it when a USB serial
number is present. -/
def smd_entry (drives : PVal) (obj : List (String × PVal)) (r : List (PVal × UsbInfo)) :
    Except Unit (List (PVal × UsbInfo)) :=
  let u0 : UsbInfo := {}
  let u1 := match List.lookup "idVendor" obj with
            | some w => { u0 with vendor_id := w }
            | Option.none => u0
  let u2 := match List.lookup "idProduct" obj with
            | some w => { u1 with product_id := w }
            | Option.none => u1
  match List.lookup "USB Serial Number" obj with
  | Option.none => .ok r   -- no serial: `usb_info` is built but never inserted
  | some sn =>
    match find_tty (.dict obj) with
    | .error e => .error e
    | .ok tty =>
      let u3 := { u2 with serial := sn, tty := tty }
      let disk_id := get_disk_id drives sn
      if pyHashable disk_id then .ok (dictSet r disk_id u3)
      else .error ()   -- `r[disk_id]` with an unhashable key raises TypeError

mutual

/-- `set_mbed_devs` (source lines 229-267); `obj.items()` raises on a
non-dict. -/
def set_mbed_devs (drives : PVal) (obj : PVal) (r : List (PVal × UsbInfo)) :
    Except Unit (List (PVal × UsbInfo)) :=
  match obj with
  | .dict kvs => smd_items drives kvs kvs r
  | _ => .error ()
termination_by 2 * sizeOf obj
decreasing_by
  all_goals simp_wf
  all_goals omega

/-- The `for k, v in obj.items()` loop; `obj` is the full item list of the
enclosing dict, `todo` the items still to visit. -/
def smd_items (drives : PVal) (obj : List (String × PVal)) (todo : List (String × PVal))
    (r : List (PVal × UsbInfo)) : Except Unit (List (PVal × UsbInfo)) :=
  match todo with
  | [] => .ok r
  | (k, v) :: rest =>
    match v with
    | .dict kvs' =>
      -- `if isinstance(v, dict): set_mbed_devs(v)` — then the loop continues
      match set_mbed_devs drives (.dict kvs') r with
      | .error e => .error e
      | .ok r' => smd_items drives obj rest r'
    | .str s =>
      if isNameKey k then
        if mbed_volume_name_match s then
          match smd_entry drives obj r with
          | .error e => .error e
          | .ok r' => smd_items drives obj rest r'
        else smd_items drives obj rest r
      else smd_items drives obj rest r
    | _ =>
      if isNameKey k then .error ()
        -- `search(v)` on a non-str, non-dict value raises TypeError
      else smd_items drives obj rest r
termination_by 2 * sizeOf todo + 1
decreasing_by
  all_goals simp_wf
  all_goals omega

end

/-! ## `list_mbeds` (source lines 50-99) and its helpers (271-279)

Inputs: the correlated-device map (`get_mbed_volumes`, keyed by disk id), the
mount table (`get_mount_points`, `{volume_id: mount_point}` with string keys
from the plist and `None` for unmounted partitions), the vendor-id table
`manufacture_ids` and the volume-metadata reader `get_mbed_htm_target_id`
(both inherited from the base class outside this file, passed as parameters).
Each produced record is tagged with the intersection key (the comprehension's
loop variable `v`) so that per-disk-id properties can be stated; the source's
result list is the second projection of the pairs. -/

/-- `target_id` (source lines 271-275): the serial if it `is not None`. -/
def target_id (u : UsbInfo) : PVal :=
  if PVal.beq u.serial PVal.none then PVal.none else u.serial

/-- `platform_name` (source lines 277-279): `target_id[:4]` looked up in
`manufacture_ids`, implicit `None` when absent; raises when `target_id` is
`None` (slicing `None`) or the slice is unhashable. -/
def platform_name (ids : List (String × String)) (tid : PVal) : Except Unit PVal :=
  match pySlice4 tid with
  | .error e => .error e
  | .ok (.str s) =>
    .ok (match List.lookup s ids with
         | some n => .str n
         | Option.none => .none)
  | .ok _ => .error ()

/-- The string-level core of `platform_name`: the vendor-table entry for the
first four characters of the target id, `None` when unrecognised
(`platform_name ids (.str s) = .ok (platform_name_str ids s)` by unfolding). -/
def platform_name_str (ids : List (String × String)) (tid : String) : PVal :=
  match List.lookup (tid.take 4) ids with
  | some n => .str n
  | Option.none => .none

/-- The final output record; the last two fields model dict keys that are
absent until lines 94 and 97 add them (`some x` = key present with value
`x`). -/
structure BoardRecord where
  mount_point : PVal
  serial_port : PVal
  target_id : PVal
  platform_name : PVal
  target_id_usb_id : Option PVal := Option.none
  target_id_mbed_htm : Option PVal := Option.none

/-- `volumes_keys & mounts_keys` (source lines 61-63): the volume keys that
equal some mount-table key (a non-string disk id never equals a string key).
Python's set iteration order is arbitrary; we keep the volume-key order, and
all claims about the result are order-insensitive. -/
def interKeys (volumes : List (PVal × UsbInfo)) (mounts : List (String × PVal)) :
    List PVal :=
  (volumes.map Prod.fst).filter
    (fun k => match k with
              | .str s => (mounts.map Prod.fst).contains s
              | _ => false)

/-- `mounts[v]`; only applied to keys drawn from the intersection, where the
lookup always succeeds. -/
def mountOf (mounts : List (String × PVal)) (k : PVal) : PVal :=
  match k with
  | .str s => (List.lookup s mounts).getD .none
  | _ => .none

/-- The record comprehension (source lines 71-78), evaluated left to right;
`platform_name` may raise, which aborts the whole comprehension. -/
def buildRecords (ids : List (String × String)) (volumes : List (PVal × UsbInfo))
    (mounts : List (String × PVal)) : List PVal → Except Unit (List (PVal × BoardRecord))
  | [] => .ok []
  | v :: rest =>
    let u := (List.lookup v volumes).getD {}
    match platform_name ids (target_id u) with
    | .error e => .error e
    | .ok pn =>
      match buildRecords ids volumes mounts rest with
      | .error e => .error e
      | .ok rs =>
        .ok ((v, { mount_point := mountOf mounts v,
                   serial_port := u.tty,
                   target_id := target_id u,
                   platform_name := pn }) :: rs)

/-- `None in result[i]` (source line 85): membership among the record dict's
keys, which at that point are the four fixed strings of the comprehension, so
the test is always False. -/
def noneInRecordKeys (_r : BoardRecord) : Bool := false

/-- The mbed.htm pass for one record (source lines 89-97); `htm` is the
volume-metadata reader `get_mbed_htm_target_id`. -/
def resolveHtm (ids : List (String × String)) (htm : PVal → PVal) (r : BoardRecord) :
    Except Unit BoardRecord :=
  if pyTruthy r.mount_point then
    let h := htm r.mount_point
    if pyTruthy h then
      match pySlice4 h with
      | .error e => .error e
      | .ok h4 =>
        match platform_name ids h4 with
        | .error e => .error e
        | .ok pn =>
          .ok { r with target_id_usb_id := some r.target_id,
                       target_id := h,
                       platform_name := pn,
                       target_id_mbed_htm := some h }
    else .ok { r with target_id_mbed_htm := some h }
  else .ok r

/-- The `for i, _ in enumerate(result)` loop (source lines 80-97), threading
`ERRORLEVEL_FLAG` (initialised to 0 at line 80; the `continue` at line 87
skips the mbed.htm pass for a record flagged by `noneInRecordKeys`). -/
def postProcess (ids : List (String × String)) (htm : PVal → PVal) :
    List (PVal × BoardRecord) → Int → Except Unit (List (PVal × BoardRecord) × Int)
  | [], flag => .ok ([], flag)
  | (v, r) :: rest, flag =>
    if noneInRecordKeys r then
      match postProcess ids htm rest (-1) with
      | .error e => .error e
      | .ok (rs, f) => .ok ((v, r) :: rs, f)
    else
      match resolveHtm ids htm r with
      | .error e => .error e
      | .ok r' =>
        match postProcess ids htm rest flag with
        | .error e => .error e
        | .ok (rs, f) => .ok ((v, r') :: rs, f)

/-- `list_mbeds` (source lines 50-99), returning the tagged records together
with the final `ERRORLEVEL_FLAG`. -/
def list_mbeds (ids : List (String × String)) (volumes : List (PVal × UsbInfo))
    (mounts : List (String × PVal)) (htm : PVal → PVal) :
    Except Unit (List (PVal × BoardRecord) × Int) :=
  match buildRecords ids volumes mounts (interKeys volumes mounts) with
  | .error e => .error e
  | .ok pairs => postProcess ids htm pairs 0

/-! # Theorems -/

@[simp]
theorem PVal.beq_def (a b : PVal) : (a == b) = PVal.beq a b := rfl

theorem lastOr_none_eq_getLast? (a : List Char) : ∀ prev,
    lastOr prev a = match a.getLast? with | some z => some z | Option.none => prev := by
  induction a with
  | nil => intro prev; simp [lastOr]
  | cons c xs ih =>
    intro prev
    rw [lastOr, ih (some c)]
    cases xs with
    | nil => simp
    | cons x xs' =>
      rw [List.getLast?_cons_cons]
      rcases h : (x :: xs').getLast? with _ | z
      · rw [List.getLast?_eq_none_iff] at h; cases h
      · simp

theorem prefixRestCI_eq_some {pat cs rest : List Char} :
    prefixRestCI pat cs = some rest ↔
      ∃ w, cs = w ++ rest ∧ w.map Char.toLower = pat.map Char.toLower := by
  induction pat generalizing cs with
  | nil =>
    rw [prefixRestCI]
    constructor
    · rintro h
      cases h
      exact ⟨[], by simp⟩
    · rintro ⟨w, hw, hmap⟩
      cases w with
      | cons c w' => simp at hmap
      | nil => simp [hw]
  | cons p ps ih =>
    cases cs with
    | nil =>
      rw [prefixRestCI]
      constructor
      · intro h; cases h
      · rintro ⟨w, hw, hmap⟩
        cases w with
        | nil => simp at hmap
        | cons c w' => simp at hw
    | cons c cs' =>
      rw [prefixRestCI]
      by_cases h : c.toLower = p.toLower
      · rw [if_pos h, ih]
        constructor
        · rintro ⟨w, rfl, hmap⟩
          exact ⟨c :: w, rfl, by simp [hmap, h]⟩
        · rintro ⟨w, hw, hmap⟩
          cases w with
          | nil => simp at hmap
          | cons c' w' =>
            simp only [List.cons_append, List.cons.injEq] at hw
            obtain ⟨rfl, rfl⟩ := hw
            simp only [List.map_cons, List.cons.injEq] at hmap
            exact ⟨w', rfl, hmap.2⟩
      · rw [if_neg h]
        constructor
        · intro hc; cases hc
        · rintro ⟨w, hw, hmap⟩
          cases w with
          | nil => simp at hmap
          | cons c' w' =>
            simp only [List.cons_append, List.cons.injEq] at hw
            obtain ⟨rfl, rfl⟩ := hw
            simp only [List.map_cons, List.cons.injEq] at hmap
            exact absurd hmap.1 h

theorem wordish_eq_false {o : Option Char} :
    wordish o = false ↔ ∀ x, o = some x → isWordChar x = false := by
  cases o <;> simp [wordish]

theorem matchWordHere_iff {pat : List Char} {prev : Option Char} {cs : List Char} :
    matchWordHere pat prev cs = true ↔
      ∃ w d, cs = w ++ d ∧ w.map Char.toLower = pat.map Char.toLower ∧
        (∀ x, prev = some x → isWordChar x = false) ∧
        (∀ y, d.head? = some y → isWordChar y = false) := by
  constructor
  · intro hm
    unfold matchWordHere at hm
    rcases h : prefixRestCI pat cs with _ | rest
    · rw [h] at hm; simp at hm
    · rw [h] at hm
      simp only [Bool.and_eq_true, Bool.not_eq_true'] at hm
      obtain ⟨w, rfl, hmap⟩ := prefixRestCI_eq_some.mp h
      exact ⟨w, rest, rfl, hmap, wordish_eq_false.mp hm.1, wordish_eq_false.mp hm.2⟩
  · rintro ⟨w, d, rfl, hmap, hp, hd⟩
    unfold matchWordHere
    have h : prefixRestCI pat (w ++ d) = some d := prefixRestCI_eq_some.mpr ⟨w, rfl, hmap⟩
    rw [h]
    simp only [Bool.and_eq_true, Bool.not_eq_true']
    exact ⟨wordish_eq_false.mpr hp, wordish_eq_false.mpr hd⟩

theorem occursFrom_nil {pat : List Char} {prev : Option Char} (hne : pat ≠ []) :
    ¬ occursFrom pat prev [] := by
  rintro ⟨a, w, d, heq, hmap, -, -⟩
  obtain ⟨haw, hd⟩ := List.append_eq_nil.mp heq.symm
  obtain ⟨ha, hw⟩ := List.append_eq_nil.mp haw
  rw [hw] at hmap
  cases pat with
  | nil => exact hne rfl
  | cons p ps => simp at hmap

theorem occursFrom_cons {pat : List Char} {prev : Option Char} {c : Char} {cs : List Char} :
    occursFrom pat prev (c :: cs) ↔
      (∃ w d, c :: cs = w ++ d ∧ w.map Char.toLower = pat.map Char.toLower ∧
        (∀ x, prev = some x → isWordChar x = false) ∧
        (∀ y, d.head? = some y → isWordChar y = false)) ∨
      occursFrom pat (some c) cs := by
  constructor
  · rintro ⟨a, w, d, heq, hmap, hlast, hhead⟩
    cases a with
    | nil =>
      left
      refine ⟨w, d, by simpa using heq, hmap, ?_, hhead⟩
      simpa [lastOr] using hlast
    | cons a0 a' =>
      right
      simp only [List.cons_append, List.cons.injEq] at heq
      obtain ⟨rfl, rfl⟩ := heq
      exact ⟨a', w, d, rfl, hmap, by rw [← lastOr]; exact hlast, hhead⟩
  · rintro (⟨w, d, heq, hmap, hp, hd⟩ | ⟨a, w, d, heq, hmap, hlast, hhead⟩)
    · exact ⟨[], w, d, by simpa using heq, hmap, by simpa [lastOr] using hp, hd⟩
    · exact ⟨c :: a, w, d, by simp [heq], hmap, by rw [lastOr]; exact hlast, hhead⟩

theorem reScan_iff (cs : List Char) (prev : Option Char) :
    reScan prev cs = true ↔
      occursFrom mbedPat prev cs ∨ occursFrom seggerPat prev cs := by
  induction cs generalizing prev with
  | nil =>
    rw [reScan]
    constructor
    · intro h
      exfalso
      simp only [Bool.or_eq_true, matchWordHere_iff] at h
      rcases h with (⟨w, d, heq, hmap, -, -⟩ | ⟨w, d, heq, hmap, -, -⟩) | h
      · have hw : w = [] := by cases w <;> simp_all
        rw [hw] at hmap; simp [mbedPat] at hmap
      · have hw : w = [] := by cases w <;> simp_all
        rw [hw] at hmap; simp [seggerPat] at hmap
      · simp at h
    · rintro (h | h)
      · exact absurd h (occursFrom_nil (by simp [mbedPat]))
      · exact absurd h (occursFrom_nil (by simp [seggerPat]))
  | cons c cs' ih =>
    rw [reScan]
    constructor
    · intro h
      simp only [Bool.or_eq_true] at h
      rcases h with (h | h) | h
      · exact Or.inl (occursFrom_cons.mpr (Or.inl (matchWordHere_iff.mp h)))
      · exact Or.inr (occursFrom_cons.mpr (Or.inl (matchWordHere_iff.mp h)))
      · rcases (ih (some c)).mp h with h' | h'
        · exact Or.inl (occursFrom_cons.mpr (Or.inr h'))
        · exact Or.inr (occursFrom_cons.mpr (Or.inr h'))
    · intro h
      simp only [Bool.or_eq_true]
      rcases h with h | h <;> rcases occursFrom_cons.mp h with h' | h'
      · exact Or.inl (Or.inl (matchWordHere_iff.mpr h'))
      · exact Or.inr ((ih (some c)).mpr (Or.inl h'))
      · exact Or.inl (Or.inr (matchWordHere_iff.mpr h'))
      · exact Or.inr ((ih (some c)).mpr (Or.inr h'))

theorem occursFrom_none_iff_containsWordCI {pat : List Char} {s : List Char} :
    occursFrom pat Option.none s ↔ containsWordCI pat s := by
  unfold occursFrom containsWordCI
  have hl : ∀ a : List Char, lastOr Option.none a = a.getLast? := by
    intro a
    rw [lastOr_none_eq_getLast? a Option.none]
    cases a.getLast? <;> simp
  constructor
  · rintro ⟨a, w, d, heq, hmap, hlast, hhead⟩
    exact ⟨a, w, d, heq, hmap, by rw [← hl]; exact hlast, hhead⟩
  · rintro ⟨a, w, d, heq, hmap, hlast, hhead⟩
    exact ⟨a, w, d, heq, hmap, by rw [hl]; exact hlast, hhead⟩

/-! ## Claim C5 -/

/-- Claim C5: the board-identifying pattern matches a string iff it contains
`mbed` or `SEGGER MSD` as a case-insensitive whole word; in particular
`"Mbed Virtual Serial"` matches and `"Mbedded-widget"` does not. -/
theorem mbed_volume_name_match_iff_whole_word :
    (∀ s : String, mbed_volume_name_match s = true ↔
      (containsWordCI mbedPat s.data ∨ containsWordCI seggerPat s.data)) ∧
    mbed_volume_name_match "Mbed Virtual Serial" = true ∧
    mbed_volume_name_match "Mbedded-widget" = false := by
  refine ⟨fun s => ?_, by decide, by decide⟩
  rw [mbed_volume_name_match, reScan_iff,
    occursFrom_none_iff_containsWordCI, occursFrom_none_iff_containsWordCI]

/-! ## Association-list helper lemmas -/

theorem lookup_isSome_of_mem_keys {β : Type} (kvs : List (String × β)) (k : String)
    (h : k ∈ kvs.map Prod.fst) : ∃ v, List.lookup k kvs = some v := by
  induction kvs with
  | nil => simp at h
  | cons p rest ih =>
    rcases p with ⟨a, b⟩
    by_cases hk : k = a
    · exact ⟨b, by simp [List.lookup, hk]⟩
    · simp only [List.map_cons, List.mem_cons] at h
      rcases h with h | h
      · exact absurd h.symm (fun hh => hk hh.symm)
      · obtain ⟨v, hv⟩ := ih h
        have hne : (k == a) = false := beq_eq_false_iff_ne.mpr hk
        exact ⟨v, by simp [List.lookup, hne, hv]⟩

theorem lookup_eq_none_of_not_mem_keys {β : Type} (kvs : List (String × β)) (k : String)
    (h : k ∉ kvs.map Prod.fst) : List.lookup k kvs = Option.none := by
  induction kvs with
  | nil => rfl
  | cons p rest ih =>
    rcases p with ⟨a, b⟩
    simp only [List.map_cons, List.mem_cons, not_or] at h
    have hne : (k == a) = false := beq_eq_false_iff_ne.mpr h.1
    simp [List.lookup, hne, ih h.2]

theorem any_key_iff_mem {β : Type} (kvs : List (String × β)) (k : String) :
    (kvs.any (fun p => p.1 == k)) = true ↔ k ∈ kvs.map Prod.fst := by
  simp [List.any_eq_true, beq_iff_eq, List.mem_map]

/-! ## Claim C9 -/

/-- Claim C9, counterexample: `has_children` is not "true iff the node is a
mapping containing the child key", and the pair is not total: a sequence node
containing the key string satisfies `has_children` (and then `get_children`
raises), and a numeric scalar makes `has_children` itself raise. -/
theorem has_children_counterexample :
    has_children (.list [.str "IORegistryEntryChildren"]) = .ok true ∧
    ¬ isMappingWithChildKey (.list [.str "IORegistryEntryChildren"]) ∧
    has_children (.int 0) = .error () ∧
    get_children (.list [.str "IORegistryEntryChildren"]) = .error () := by
  refine ⟨?_, ?_, rfl, ?_⟩
  · simp [has_children, pyIn, PVal.beq.eq_def, List.contains]
  · simp [isMappingWithChildKey]
  · simp [get_children, has_children, pyIn, PVal.beq.eq_def, List.contains]

/-- Claim C9, amended: restricted to mapping nodes and the absent node, the
Tree Navigator contract holds: `has_children` never fails and is true iff the
mapping contains the child-collection key, and `get_children` never fails,
returning the child collection when present and an absent value otherwise.
(On sequence/string nodes the membership test looks for the key as an
element/substring and `get_children` raises when it passes; on numeric
scalars both raise — see the counterexample.) -/
theorem navigator_contract_on_mappings :
    (∀ kvs : List (String × PVal),
      (has_children (.dict kvs) = .ok true ↔ isMappingWithChildKey (.dict kvs)) ∧
      (∃ c, get_children (.dict kvs) = .ok c ∧
        ((isMappingWithChildKey (.dict kvs) ∧
            List.lookup "IORegistryEntryChildren" kvs = some c) ∨
         (¬ isMappingWithChildKey (.dict kvs) ∧ c = PVal.none)))) ∧
    has_children PVal.none = .ok false ∧ get_children PVal.none = .ok PVal.none := by
  refine ⟨fun kvs => ⟨?_, ?_⟩, rfl, rfl⟩
  · rw [show has_children (.dict kvs) = .ok (kvs.any (fun p => p.1 == "IORegistryEntryChildren"))
        from rfl]
    simp only [Except.ok.injEq, isMappingWithChildKey]
    exact any_key_iff_mem kvs "IORegistryEntryChildren"
  · by_cases hm : "IORegistryEntryChildren" ∈ kvs.map Prod.fst
    · obtain ⟨v, hv⟩ := lookup_isSome_of_mem_keys kvs _ hm
      refine ⟨v, ?_, Or.inl ⟨hm, hv⟩⟩
      have hany : (kvs.any (fun p => p.1 == "IORegistryEntryChildren")) = true :=
        (any_key_iff_mem kvs _).mpr hm
      simp [get_children, has_children, pyIn, hany, hv]
    · have hany : (kvs.any (fun p => p.1 == "IORegistryEntryChildren")) = false := by
        rcases h : (kvs.any (fun p => p.1 == "IORegistryEntryChildren")) with _ | _
        · rfl
        · exact absurd ((any_key_iff_mem kvs _).mp h) hm
      refine ⟨PVal.none, ?_, Or.inr ⟨hm, rfl⟩⟩
      simp [get_children, has_children, pyIn, hany]

/-! ## Claim C7 -/

/-- Claim C7: `find_tty` never descends a list-valued child collection: on a
registry node whose `IORegistryEntryChildren` is a list containing a node that
carries `IODialinDevice`, it returns `None` instead of that node's dial-in
path (membership on the list tests elements, which are dicts, so
`has_children` is False one level down).  The second conjunct exhibits the
descendant carrying the field.  This contradicts the function's own
docstring ("return the first tty that we can find in the children of the
specified object"). -/
theorem find_tty_ignores_list_children :
    find_tty (.dict [("IORegistryEntryChildren",
        .list [.dict [("IODialinDevice", .str "/dev/tty.usbmodem1")]])]) = .ok PVal.none ∧
    List.lookup "IODialinDevice" [("IODialinDevice", PVal.str "/dev/tty.usbmodem1")] =
      some (.str "/dev/tty.usbmodem1") := by
  refine ⟨?_, rfl⟩
  simp [find_tty, find_tty_children, List.lookup, PVal.beq.eq_def, List.contains]

/-! ## Claim C8 -/

/-- Claim C8, counterexample: a malformed entry (here an int, on which the
membership test raises) aborts the whole scan via `except: return None`, so a
well-formed matching entry occurring after it is NOT found; the same entry
alone is found. -/
theorem get_disk_id_aborts_after_malformed :
    get_disk_id (.list [.int 0,
        .dict [("serial_num", .str "9999"), ("bsd_name", .str "disk2s1")]])
      (.str "9999") = PVal.none ∧
    get_disk_id (.list [.dict [("serial_num", .str "9999"), ("bsd_name", .str "disk2s1")]])
      (.str "9999") = .str "disk2s1" := by
  constructor
  · simp [get_disk_id, get_disk_id_scan]
  · simp [get_disk_id, get_disk_id_scan, List.lookup, PVal.beq.eq_def]

/-- Claim C8, amended: on a list of well-shaped (dict) entries, `get_disk_id`
returns the `bsd_name` of the first entry whose `serial_num` equals the query,
skipping entries that merely lack the fields, and absent when none matches;
an entry whose shape makes the field tests or subscript raise instead aborts
the scan with an absent result (the error is contained, but later entries are
not examined — see the counterexample). -/
theorem get_disk_id_first_match_of_dicts (sn : PVal) :
    ∀ devs : List PVal, (∀ d ∈ devs, ∃ kvs, d = PVal.dict kvs) →
      get_disk_id (.list devs) sn = firstDiskId sn devs := by
  intro devs h
  rw [get_disk_id]
  induction devs with
  | nil => rfl
  | cons dev rest ih =>
    obtain ⟨kvs, rfl⟩ := h dev (List.mem_cons_self dev rest)
    have ih' := ih (fun d hd => h d (List.mem_cons_of_mem _ hd))
    rw [get_disk_id_scan, firstDiskId]
    cases h1 : List.lookup "serial_num" kvs with
    | none => simp [h1, ih']
    | some s =>
      cases h2 : List.lookup "bsd_name" kvs with
      | none => simp [h1, h2, ih']
      | some b =>
        cases hbeq : PVal.beq s sn with
        | false => simp [h1, h2, hbeq, ih']
        | true => simp [h1, h2, hbeq]

/-- Witness for the amended C8 theorem at a concrete input: an entry lacking
both fields is skipped and the following matching entry is found. -/
theorem get_disk_id_first_match_of_dicts_witness :
    get_disk_id (.list [.dict [("x", .int 1)],
        .dict [("serial_num", .str "9999"), ("bsd_name", .str "disk2s1")]])
      (.str "9999") =
    firstDiskId (.str "9999") [.dict [("x", .int 1)],
        .dict [("serial_num", .str "9999"), ("bsd_name", .str "disk2s1")]] :=
  get_disk_id_first_match_of_dicts (.str "9999") _ (by
    intro d hd
    simp only [List.mem_cons, List.not_mem_nil, or_false] at hd
    rcases hd with rfl | rfl
    · exact ⟨_, rfl⟩
    · exact ⟨_, rfl⟩)
/-! ## Claim C10 -/

/-- Evaluation of the node loop on the first concrete `_items` list of the
C10 run: the malformed middle node suppresses the later match. -/
theorem fspItems_run1 :
    fspItems
      [.dict [("_name", .str "MBED drive"), ("bsd_name", .str "disk2s1")],
       .dict [("bsd_name", .str "disk3s1")],
       .dict [("_name", .str "MBED two"), ("bsd_name", .str "disk4s1")]] =
    [.dict [("_name", .str "MBED drive"), ("bsd_name", .str "disk2s1")]] := by
  have h0 : mbed_volume_name_match "MBED drive" = true := by decide
  simp [fspItems, fspNode, fspCollect, List.lookup, h0]

/-- Evaluation of one `o` of the C10 run. -/
theorem fspOne_run1 :
    fspOne (.dict [("_items", .list
      [.dict [("_name", .str "MBED drive"), ("bsd_name", .str "disk2s1")],
       .dict [("bsd_name", .str "disk3s1")],
       .dict [("_name", .str "MBED two"), ("bsd_name", .str "disk4s1")]])]) =
    .ok [.dict [("_name", .str "MBED drive"), ("bsd_name", .str "disk2s1")]] := by
  rw [fspOne, fspFind]
  simp [fspItems_run1]

/-- Evaluation of the other `o` of the C10 run. -/
theorem fspOne_run2 :
    fspOne (.dict [("_items", .list
      [.dict [("_name", .str "SEGGER MSD volume"), ("bsd_name", .str "disk5s1")]])]) =
    .ok [.dict [("_name", .str "SEGGER MSD volume"), ("bsd_name", .str "disk5s1")]] := by
  have hs : mbed_volume_name_match "SEGGER MSD volume" = true := by decide
  have hB : fspItems
      [.dict [("_name", .str "SEGGER MSD volume"), ("bsd_name", .str "disk5s1")]] =
      [.dict [("_name", .str "SEGGER MSD volume"), ("bsd_name", .str "disk5s1")]] := by
    simp [fspItems, fspNode, fspCollect, List.lookup, hs]
  rw [fspOne, fspFind]
  simp [hB]

/-- The concrete C10 run assembled from the two per-`o` evaluations. -/
theorem fsp_concrete_run :
    filter_system_profiler (.list
      [.dict [("_items", .list
         [.dict [("_name", .str "MBED drive"), ("bsd_name", .str "disk2s1")],
          .dict [("bsd_name", .str "disk3s1")],
          .dict [("_name", .str "MBED two"), ("bsd_name", .str "disk4s1")]])],
       .dict [("_items", .list
         [.dict [("_name", .str "SEGGER MSD volume"), ("bsd_name", .str "disk5s1")]])]]) =
    .ok [.dict [("_name", .str "MBED drive"), ("bsd_name", .str "disk2s1")],
         .dict [("_name", .str "SEGGER MSD volume"), ("bsd_name", .str "disk5s1")]] := by
  rw [filter_system_profiler, fspList, fspOne_run1, fspList, fspOne_run2, fspList]
  rfl

/-- Claim C10: in `filter_system_profiler`, once processing one child node of
an `_items` list raises (e.g. a mapping lacking `_name`), the remaining
sibling nodes of that same list are skipped and contribute nothing (first
conjunct: the result does not depend on the nodes after the failing one),
while separate `_items` lists are processed independently (second conjunct);
the third conjunct is a concrete run in which a malformed sibling suppresses
a later well-formed match in its own list while another list's match is still
collected. -/
theorem filter_system_profiler_sibling_suppression :
    (∀ pre post : List PVal, ∀ bad : PVal,
      (∀ i ∈ pre, (fspNode i).2 = true) → (fspNode bad).2 = false →
      fspItems (pre ++ bad :: post) = fspItems (pre ++ [bad])) ∧
    (∀ os1 os2 : List PVal, fspList (os1 ++ os2) =
      (match fspList os1, fspList os2 with
       | .ok r1, .ok r2 => Except.ok (r1 ++ r2)
       | .error e, _ => .error e
       | .ok _, .error e => .error e)) ∧
    filter_system_profiler (.list
      [.dict [("_items", .list
         [.dict [("_name", .str "MBED drive"), ("bsd_name", .str "disk2s1")],
          .dict [("bsd_name", .str "disk3s1")],
          .dict [("_name", .str "MBED two"), ("bsd_name", .str "disk4s1")]])],
       .dict [("_items", .list
         [.dict [("_name", .str "SEGGER MSD volume"), ("bsd_name", .str "disk5s1")]])]]) =
    .ok [.dict [("_name", .str "MBED drive"), ("bsd_name", .str "disk2s1")],
         .dict [("_name", .str "SEGGER MSD volume"), ("bsd_name", .str "disk5s1")]] := by
  refine ⟨?_, ?_, fsp_concrete_run⟩
  · intro pre post bad hpre hbad
    induction pre with
    | nil =>
      simp only [List.nil_append]
      rcases hb : fspNode bad with ⟨c, b⟩
      cases b
      · simp only [fspItems, hb]
      · rw [hb] at hbad; simp at hbad
    | cons p pre' ih =>
      simp only [List.cons_append]
      have hp := hpre p (by simp)
      rcases hb : fspNode p with ⟨c, b⟩
      rw [hb] at hp
      cases b
      · simp at hp
      · have ih' := ih (fun i hi => hpre i (by simp [hi]))
        simp only [List.cons_append] at ih'
        simp only [fspItems, hb]
        rw [ih']
  · intro os1 os2
    induction os1 with
    | nil =>
      have hnil : fspList ([] : List PVal) = .ok [] := by simp [fspList]
      rw [List.nil_append, hnil]
      rcases h2 : fspList os2 with e | r2
      · rfl
      · simp
    | cons o os1' ih =>
      rw [List.cons_append]
      simp only [fspList]
      rw [ih]
      rcases ho : fspOne o with e | r
      · rfl
      · rcases h1 : fspList os1' with e1 | r1
        · rfl
        · rcases h2 : fspList os2 with e2 | r2
          · rfl
          · simp

/-- Witness for the C10 theorem's first conjunct at a concrete input: one
well-formed matching node, then a mapping lacking `_name`, then another
well-formed node; the result equals that of the list truncated at the
malformed node. -/
theorem filter_system_profiler_sibling_suppression_witness :
    fspItems ([.dict [("_name", .str "MBED drive"), ("bsd_name", .str "disk2s1")]] ++
        .dict [("bsd_name", .str "disk3s1")] ::
        [.dict [("_name", .str "MBED two"), ("bsd_name", .str "disk4s1")]]) =
    fspItems ([.dict [("_name", .str "MBED drive"), ("bsd_name", .str "disk2s1")]] ++
        [.dict [("bsd_name", .str "disk3s1")]]) :=
  filter_system_profiler_sibling_suppression.1
    [.dict [("_name", .str "MBED drive"), ("bsd_name", .str "disk2s1")]]
    [.dict [("_name", .str "MBED two"), ("bsd_name", .str "disk4s1")]]
    (.dict [("bsd_name", .str "disk3s1")])
    (by
      intro i hi
      simp only [List.mem_singleton] at hi
      subst hi
      have h0 : mbed_volume_name_match "MBED drive" = true := by decide
      have h : fspNode (.dict [("_name", .str "MBED drive"), ("bsd_name", .str "disk2s1")]) =
          ([.dict [("_name", .str "MBED drive"), ("bsd_name", .str "disk2s1")]], true) := by
        simp [fspNode, fspCollect, List.lookup, h0]
      rw [h])
    (by
      have h : fspNode (.dict [("bsd_name", .str "disk3s1")]) = ([], false) := by
        simp [fspNode, List.lookup]
      rw [h])

/-! ## Claim C1 -/

theorem str_contains_iff_mem (l : List String) (s : String) : l.contains s = true ↔ s ∈ l := by
  induction l with
  | nil => simp [List.contains]
  | cons a as ih => simp [List.contains] at ih ⊢

theorem buildRecords_keys (ids : List (String × String)) (volumes : List (PVal × UsbInfo))
    (mounts : List (String × PVal)) :
    ∀ (l : List PVal) (ps : List (PVal × BoardRecord)),
      buildRecords ids volumes mounts l = .ok ps → ps.map Prod.fst = l := by
  intro l
  induction l with
  | nil => intro ps h; rw [buildRecords] at h; cases h; rfl
  | cons v rest ih =>
    intro ps h
    rw [buildRecords] at h
    rcases hpn : platform_name ids (target_id ((List.lookup v volumes).getD {})) with e | pn
    · rw [hpn] at h; cases h
    · rw [hpn] at h
      rcases hbr : buildRecords ids volumes mounts rest with e | rs
      · rw [hbr] at h; cases h
      · rw [hbr] at h
        cases h
        simp [ih rs hbr]

theorem postProcess_keys (ids : List (String × String)) (htm : PVal → PVal) :
    ∀ (ps : List (PVal × BoardRecord)) (flag : Int) (out : List (PVal × BoardRecord) × Int),
      postProcess ids htm ps flag = .ok out → out.1.map Prod.fst = ps.map Prod.fst := by
  intro ps
  induction ps with
  | nil => intro flag out h; rw [postProcess] at h; cases h; rfl
  | cons pr rest ih =>
    intro flag out h
    rcases pr with ⟨v, r⟩
    rw [postProcess] at h
    simp only [noneInRecordKeys, Bool.false_eq_true, if_false] at h
    rcases hr : resolveHtm ids htm r with e | r'
    · rw [hr] at h; cases h
    · rw [hr] at h
      rcases hp : postProcess ids htm rest flag with e | out'
      · rw [hp] at h; cases h
      · rw [hp] at h
        rcases out' with ⟨rs, f⟩
        cases h
        simp [ih flag (rs, f) hp]

/-- Claim C1: over any correlated-device map and mount table, the sequence
returned by `list_mbeds` holds at most one record per disk id (the tagged
keys are nodup, given the map's keys are — they come from a Python dict), and
a record exists for a disk id iff the id is a key of both inputs (the mount
table's keys being strings, a non-string disk id is a key of one side only,
and indeed no record carries one: third conjunct). -/
theorem list_mbeds_set_intersection
    (ids : List (String × String)) (volumes : List (PVal × UsbInfo))
    (mounts : List (String × PVal)) (htm : PVal → PVal)
    (out : List (PVal × BoardRecord) × Int)
    (hnd : (volumes.map Prod.fst).Nodup)
    (hok : list_mbeds ids volumes mounts htm = .ok out) :
    (out.1.map Prod.fst).Nodup ∧
    (∀ s : String, PVal.str s ∈ out.1.map Prod.fst ↔
      (PVal.str s ∈ volumes.map Prod.fst ∧ s ∈ mounts.map Prod.fst)) ∧
    (∀ k ∈ out.1.map Prod.fst, ∃ s : String, k = PVal.str s) := by
  have hkeys : out.1.map Prod.fst = interKeys volumes mounts := by
    rw [list_mbeds] at hok
    rcases hbr : buildRecords ids volumes mounts (interKeys volumes mounts) with e | ps
    · rw [hbr] at hok; cases hok
    · rw [hbr] at hok
      rw [postProcess_keys ids htm ps 0 out hok,
        buildRecords_keys ids volumes mounts _ ps hbr]
  refine ⟨?_, ?_, ?_⟩
  · rw [hkeys]
    exact hnd.filter _
  · intro s
    rw [hkeys, interKeys, List.mem_filter]
    constructor
    · rintro ⟨hv, hp⟩
      exact ⟨hv, (str_contains_iff_mem _ s).mp hp⟩
    · rintro ⟨hv, hm⟩
      exact ⟨hv, (str_contains_iff_mem _ s).mpr hm⟩
  · intro k hk
    rw [hkeys, interKeys, List.mem_filter] at hk
    rcases k with _ | n | s | xs | kvs
    · simp at hk
    · simp at hk
    · exact ⟨s, rfl⟩
    · simp at hk
    · simp at hk

/-- Witness for C1 at a concrete input with one correlated, mounted board. -/
theorem list_mbeds_set_intersection_witness :
    (([(PVal.str "disk2s1",
        ({ mount_point := PVal.str "/Volumes/MBED",
           serial_port := PVal.str "/dev/tty.usbmodem1",
           target_id := PVal.str "9999",
           platform_name := PVal.str "LPC1768",
           target_id_usb_id := Option.none,
           target_id_mbed_htm := some PVal.none } : BoardRecord))],
      (0 : Int)).1.map Prod.fst).Nodup ∧
    (PVal.str "disk2s1" ∈
      ([(PVal.str "disk2s1",
        ({ mount_point := PVal.str "/Volumes/MBED",
           serial_port := PVal.str "/dev/tty.usbmodem1",
           target_id := PVal.str "9999",
           platform_name := PVal.str "LPC1768",
           target_id_usb_id := Option.none,
           target_id_mbed_htm := some PVal.none } : BoardRecord))],
      (0 : Int)).1.map Prod.fst ↔
      (PVal.str "disk2s1" ∈
        [(PVal.str "disk2s1",
          ({ serial := PVal.str "9999",
             tty := PVal.str "/dev/tty.usbmodem1" } : UsbInfo))].map Prod.fst ∧
       "disk2s1" ∈ [("disk2s1", PVal.str "/Volumes/MBED")].map Prod.fst)) :=
  ⟨(list_mbeds_set_intersection [("9999", "LPC1768")]
      [(PVal.str "disk2s1",
        { serial := PVal.str "9999", tty := PVal.str "/dev/tty.usbmodem1" })]
      [("disk2s1", PVal.str "/Volumes/MBED")] (fun _ => PVal.none) _
      (by simp) rfl).1,
   (list_mbeds_set_intersection [("9999", "LPC1768")]
      [(PVal.str "disk2s1",
        { serial := PVal.str "9999", tty := PVal.str "/dev/tty.usbmodem1" })]
      [("disk2s1", PVal.str "/Volumes/MBED")] (fun _ => PVal.none) _
      (by simp) rfl).2.1 "disk2s1"⟩

/-! ## Claim C2 -/

/-- Claim C2, counterexample: a correlated device with an absent serial
number that survives the mount intersection (first conjunct) does not produce
a record — `platform_name(None)` slices `None` and the TypeError escapes
`list_mbeds` (second conjunct). -/
theorem list_mbeds_raises_on_absent_serial :
    interKeys [(PVal.str "d", ({} : UsbInfo))] [("d", PVal.str "/V")] = [PVal.str "d"] ∧
    list_mbeds [] [(PVal.str "d", {})] [("d", PVal.str "/V")] (fun _ => PVal.none) =
      .error () :=
  ⟨rfl, rfl⟩

theorem buildRecords_of_serials (ids : List (String × String))
    (volumes : List (PVal × UsbInfo)) (mounts : List (String × PVal)) :
    ∀ l : List PVal,
      (∀ v ∈ l, ∃ u : UsbInfo, List.lookup v volumes = some u ∧
        ∃ s : String, u.serial = PVal.str s) →
      ∃ ps, buildRecords ids volumes mounts l = .ok ps ∧
        ∀ p ∈ ps, ∃ s : String, p.2.target_id = PVal.str s ∧
          p.2.platform_name = platform_name_str ids s := by
  intro l
  induction l with
  | nil => intro _; exact ⟨[], rfl, by simp⟩
  | cons v rest ih =>
    intro h
    obtain ⟨u, hu, s, hs⟩ := h v (by simp)
    obtain ⟨ps, hps, hrec⟩ := ih (fun v' hv' => h v' (by simp [hv']))
    have htid : target_id ((List.lookup v volumes).getD {}) = PVal.str s := by
      simp [hu, target_id, hs, PVal.beq]
    have hpn : platform_name ids (target_id ((List.lookup v volumes).getD {})) =
        .ok (platform_name_str ids s) := by
      rw [htid]; rfl
    refine ⟨(v, { mount_point := mountOf mounts v,
                  serial_port := ((List.lookup v volumes).getD {}).tty,
                  target_id := target_id ((List.lookup v volumes).getD {}),
                  platform_name := platform_name_str ids s }) :: ps, ?_, ?_⟩
    · rw [buildRecords, hpn, hps]
    · intro p hp
      simp only [List.mem_cons] at hp
      rcases hp with rfl | hp
      · exact ⟨s, htid, rfl⟩
      · exact hrec p hp

theorem postProcess_none_reader (ids : List (String × String)) :
    ∀ (ps : List (PVal × BoardRecord)) (flag : Int),
      postProcess ids (fun _ => PVal.none) ps flag =
        .ok (ps.map (fun p => (p.1,
          if pyTruthy p.2.mount_point
          then { p.2 with target_id_mbed_htm := some PVal.none }
          else p.2)), flag) := by
  intro ps
  induction ps with
  | nil => intro flag; rfl
  | cons pr rest ih =>
    intro flag
    rcases pr with ⟨v, r⟩
    rw [postProcess]
    simp only [noneInRecordKeys, Bool.false_eq_true, if_false]
    have hres : resolveHtm ids (fun _ => PVal.none) r =
        .ok (if pyTruthy r.mount_point
             then { r with target_id_mbed_htm := some PVal.none }
             else r) := by
      rw [resolveHtm]
      by_cases hmt : pyTruthy r.mount_point
      · rw [hmt]
        simp [pyTruthy]
      · simp [hmt]
    simp [hres, ih flag]

/-- Claim C2, amended: when every correlated device carries a (string) USB
serial number — which is what `set_mbed_devs` guarantees, since it only
inserts entries after finding a `'USB Serial Number'` field — `list_mbeds`
(here with a volume-metadata reader that yields nothing) returns records
without raising, and any record whose target id's first four characters are
not in the vendor-id table has an absent `platform_name`.  When a serial is
absent instead, `list_mbeds` raises (see the counterexample) rather than
producing a record. -/
theorem list_mbeds_platform_name_absent
    (ids : List (String × String)) (volumes : List (PVal × UsbInfo))
    (mounts : List (String × PVal))
    (hser : ∀ v ∈ volumes.map Prod.fst, ∃ u : UsbInfo, List.lookup v volumes = some u ∧
      ∃ s : String, u.serial = PVal.str s) :
    ∃ out, list_mbeds ids volumes mounts (fun _ => PVal.none) = .ok out ∧
      ∀ p ∈ out.1, ∀ s : String, p.2.target_id = PVal.str s →
        (ids.map Prod.fst).contains (s.take 4) = false →
        p.2.platform_name = PVal.none := by
  have hl : ∀ v ∈ interKeys volumes mounts, ∃ u : UsbInfo,
      List.lookup v volumes = some u ∧ ∃ s : String, u.serial = PVal.str s := by
    intro v hv
    rw [interKeys, List.mem_filter] at hv
    exact hser v hv.1
  obtain ⟨ps, hps, hrec⟩ := buildRecords_of_serials ids volumes mounts _ hl
  refine ⟨(ps.map (fun p => (p.1,
      if pyTruthy p.2.mount_point
      then { p.2 with target_id_mbed_htm := some PVal.none }
      else p.2)), 0), ?_, ?_⟩
  · rw [list_mbeds, hps]
    show postProcess ids (fun _ => PVal.none) ps 0 = _
    rw [postProcess_none_reader]
  · intro p hp s hts hcontains
    simp only [List.mem_map] at hp
    obtain ⟨q, hq, rfl⟩ := hp
    obtain ⟨s₀, htid0, hpn0⟩ := hrec q hq
    have h1 : ((q.1, if pyTruthy q.2.mount_point
        then { q.2 with target_id_mbed_htm := some PVal.none }
        else q.2) : PVal × BoardRecord).2.target_id = q.2.target_id := by
      by_cases hmt : pyTruthy q.2.mount_point <;> simp [hmt]
    have h2 : ((q.1, if pyTruthy q.2.mount_point
        then { q.2 with target_id_mbed_htm := some PVal.none }
        else q.2) : PVal × BoardRecord).2.platform_name = q.2.platform_name := by
      by_cases hmt : pyTruthy q.2.mount_point <;> simp [hmt]
    rw [h1, htid0] at hts
    cases hts
    rw [h2, hpn0]
    have hlk : List.lookup (s.take 4) ids = Option.none := by
      apply lookup_eq_none_of_not_mem_keys
      intro hmem
      rw [(str_contains_iff_mem _ _).mpr hmem] at hcontains
      cases hcontains
    simp [platform_name_str, hlk]

/-- Witness for the amended C2 theorem: one correlated, mounted device with
serial `"ZZZZ9"`, whose prefix is absent from the vendor table. -/
theorem list_mbeds_platform_name_absent_witness :
    ∃ out, list_mbeds [("9999", "LPC1768")]
        [(PVal.str "d", { serial := PVal.str "ZZZZ9" })]
        [("d", PVal.str "/V")] (fun _ => PVal.none) = .ok out ∧
      ∀ p ∈ out.1, ∀ s : String, p.2.target_id = PVal.str s →
        ([("9999", "LPC1768")].map Prod.fst).contains (s.take 4) = false →
        p.2.platform_name = PVal.none :=
  list_mbeds_platform_name_absent [("9999", "LPC1768")]
    [(PVal.str "d", { serial := PVal.str "ZZZZ9" })]
    [("d", PVal.str "/V")]
    (by
      intro v hv
      simp only [List.map_cons, List.map_nil, List.mem_singleton] at hv
      subst hv
      exact ⟨_, rfl, "ZZZZ9", rfl⟩)

/-! ## Claim C3 -/

/-- Claim C3: `ERRORLEVEL_FLAG` is never set.  `None in result[i]` (line 85)
tests membership among the record dict's KEYS — the four fixed strings — so
it is always False: here a produced record has absent (`None`) `serial_port`
and `platform_name` values, yet the returned flag is 0, not the error value
-1 required by the claim. -/
theorem errorlevel_flag_never_set :
    list_mbeds [] [(PVal.str "d", { serial := PVal.str "ZZZZ1" })]
      [("d", PVal.str "/V")] (fun _ => PVal.none) =
    .ok ([(PVal.str "d",
      { mount_point := PVal.str "/V",
        serial_port := PVal.none,
        target_id := PVal.str "ZZZZ1",
        platform_name := PVal.none,
        target_id_usb_id := Option.none,
        target_id_mbed_htm := some PVal.none })], 0) :=
  rfl

/-! ## Claim C4 -/

theorem set_mbed_devs_dict (drives : PVal) (kvs : List (String × PVal))
    (r : List (PVal × UsbInfo)) :
    set_mbed_devs drives (.dict kvs) r = smd_items drives kvs kvs r := by
  rw [set_mbed_devs]

theorem smd_items_cons_name_match_ok (drives : PVal) (obj : List (String × PVal))
    (k : String) (s : String) (rest : List (String × PVal))
    (r r' : List (PVal × UsbInfo))
    (hk : isNameKey k = true) (hs : mbed_volume_name_match s = true)
    (he : smd_entry drives obj r = .ok r') :
    smd_items drives obj ((k, .str s) :: rest) r = smd_items drives obj rest r' := by
  rw [smd_items.eq_def]
  simp [hk, hs, he]

theorem smd_items_cons_str_skip (drives : PVal) (obj : List (String × PVal))
    (k : String) (s : String) (rest : List (String × PVal)) (r : List (PVal × UsbInfo))
    (hk : isNameKey k = false) :
    smd_items drives obj ((k, .str s) :: rest) r = smd_items drives obj rest r := by
  rw [smd_items.eq_def]
  simp [hk]

theorem smd_items_cons_dict_ok (drives : PVal) (obj : List (String × PVal))
    (k : String) (kvs' : List (String × PVal)) (rest : List (String × PVal))
    (r r' : List (PVal × UsbInfo))
    (hd : set_mbed_devs drives (.dict kvs') r = .ok r') :
    smd_items drives obj ((k, .dict kvs') :: rest) r = smd_items drives obj rest r' := by
  rw [smd_items.eq_def]
  simp [hd]

theorem smd_items_nil (drives : PVal) (obj : List (String × PVal))
    (r : List (PVal × UsbInfo)) :
    smd_items drives obj [] r = .ok r := by
  rw [smd_items.eq_def]

/-- Claim C4: `set_mbed_devs` does not stop descending after a
serial-number-bearing match.  On a registry node that matches the board
pattern and carries serial `"A"`, with a nested dict child that also matches
and carries serial `"B"`, BOTH produce entries in the output map — the
descendant of the matched node is still visited (the loop has no break and
recursion into dict values is unconditional), contradicting the inline
comment "stop at the first one we find (or we'll pick up hubs, etc.)". -/
theorem set_mbed_devs_descends_after_serial_match :
    set_mbed_devs
      (.list [.dict [("serial_num", .str "A"), ("bsd_name", .str "diskA")],
              .dict [("serial_num", .str "B"), ("bsd_name", .str "diskB")]])
      (.dict [("IORegistryEntryName", .str "mbed root"),
              ("USB Serial Number", .str "A"),
              ("child", .dict [("IORegistryEntryName", .str "mbed child"),
                               ("USB Serial Number", .str "B")])])
      [] =
    .ok [(.str "diskA", { serial := .str "A", tty := .none }),
         (.str "diskB", { serial := .str "B", tty := .none })] := by
  have h1 : mbed_volume_name_match "mbed root" = true := by decide
  have h2 : mbed_volume_name_match "mbed child" = true := by decide
  have hftA : find_tty
      (.dict [("IORegistryEntryName", .str "mbed root"),
              ("USB Serial Number", .str "A"),
              ("child", .dict [("IORegistryEntryName", .str "mbed child"),
                               ("USB Serial Number", .str "B")])]) = .ok PVal.none := by
    simp [find_tty, find_tty_children, List.lookup]
  have hftB : find_tty
      (.dict [("IORegistryEntryName", .str "mbed child"),
              ("USB Serial Number", .str "B")]) = .ok PVal.none := by
    simp [find_tty, find_tty_children, List.lookup]
  have heA : smd_entry
      (.list [.dict [("serial_num", .str "A"), ("bsd_name", .str "diskA")],
              .dict [("serial_num", .str "B"), ("bsd_name", .str "diskB")]])
      [("IORegistryEntryName", .str "mbed root"),
       ("USB Serial Number", .str "A"),
       ("child", .dict [("IORegistryEntryName", .str "mbed child"),
                        ("USB Serial Number", .str "B")])]
      [] = .ok [(.str "diskA", { serial := .str "A", tty := .none })] := by
    rw [smd_entry, hftA]
    rfl
  have heB : smd_entry
      (.list [.dict [("serial_num", .str "A"), ("bsd_name", .str "diskA")],
              .dict [("serial_num", .str "B"), ("bsd_name", .str "diskB")]])
      [("IORegistryEntryName", .str "mbed child"),
       ("USB Serial Number", .str "B")]
      [(.str "diskA", { serial := .str "A", tty := .none })] =
      .ok [(.str "diskA", { serial := .str "A", tty := .none }),
           (.str "diskB", { serial := .str "B", tty := .none })] := by
    rw [smd_entry, hftB]
    rfl
  have tc : set_mbed_devs
      (.list [.dict [("serial_num", .str "A"), ("bsd_name", .str "diskA")],
              .dict [("serial_num", .str "B"), ("bsd_name", .str "diskB")]])
      (.dict [("IORegistryEntryName", .str "mbed child"),
              ("USB Serial Number", .str "B")])
      [(.str "diskA", { serial := .str "A", tty := .none })] =
      .ok [(.str "diskA", { serial := .str "A", tty := .none }),
           (.str "diskB", { serial := .str "B", tty := .none })] := by
    rw [set_mbed_devs_dict,
      smd_items_cons_name_match_ok _ _ "IORegistryEntryName" "mbed child" _ _ _ rfl h2 heB,
      smd_items_cons_str_skip _ _ "USB Serial Number" "B" _ _ rfl,
      smd_items_nil]
  rw [set_mbed_devs_dict,
    smd_items_cons_name_match_ok _ _ "IORegistryEntryName" "mbed root" _ _ _ rfl h1 heA,
    smd_items_cons_str_skip _ _ "USB Serial Number" "A" _ _ rfl,
    smd_items_cons_dict_ok _ _ "child" _ _ _ _ tc,
    smd_items_nil]

/-! ## Claim C6 -/

/-- Claim C6, counterexample: when the volume-metadata reader yields the
non-absent but empty identifier `""`, the record is NOT rewritten (`if
htm_target_id:` is a truthiness test, and `""` is falsy): `target_id` stays
`"9999"` instead of becoming `""`, and no `target_id_usb_id` key appears —
only `target_id_mbed_htm` records the empty extract. -/
theorem resolveHtm_empty_identifier :
    resolveHtm [] (fun _ => PVal.str "")
      { mount_point := PVal.str "/Volumes/MBED",
        serial_port := PVal.str "/dev/tty.usbmodem1",
        target_id := PVal.str "9999",
        platform_name := PVal.none } =
      .ok { mount_point := PVal.str "/Volumes/MBED",
            serial_port := PVal.str "/dev/tty.usbmodem1",
            target_id := PVal.str "9999",
            platform_name := PVal.none,
            target_id_usb_id := Option.none,
            target_id_mbed_htm := some (PVal.str "") } ∧
    PVal.str "9999" ≠ PVal.str "" :=
  ⟨rfl, by simp⟩

/-- Claim C6, amended: for a record with a non-absent, NON-EMPTY mount point:
if the reader yields a non-absent, non-empty identifier `X`, the final record
has `target_id = X`, the original target id preserved under
`target_id_usb_id`, `platform_name` recomputed from the first four characters
of `X`, and `target_id_mbed_htm = X`; if it yields an absent (or empty)
value, `target_id_mbed_htm` is still added, holding that value, and all other
fields are unchanged.  (Absent-or-empty identifiers and empty mount points
fall through the truthiness guards — see the counterexample.) -/
theorem resolveHtm_identity_resolver
    (ids : List (String × String)) (htm : PVal → PVal) (r : BoardRecord) (m : String)
    (hm : r.mount_point = PVal.str m) (hne : m ≠ "") :
    (∀ x : String, htm r.mount_point = PVal.str x → x ≠ "" →
      resolveHtm ids htm r = .ok { r with
        target_id_usb_id := some r.target_id,
        target_id := PVal.str x,
        platform_name := platform_name_str ids (x.take 4),
        target_id_mbed_htm := some (PVal.str x) }) ∧
    (htm r.mount_point = PVal.none →
      resolveHtm ids htm r = .ok { r with target_id_mbed_htm := some PVal.none }) ∧
    (htm r.mount_point = PVal.str "" →
      resolveHtm ids htm r = .ok { r with target_id_mbed_htm := some (PVal.str "") }) := by
  have htr : pyTruthy r.mount_point = true := by
    rw [hm]
    simp [pyTruthy, hne]
  refine ⟨?_, ?_, ?_⟩
  · intro x hx hxe
    rw [resolveHtm, htr, hx]
    have hxt : pyTruthy (PVal.str x) = true := by simp [pyTruthy, hxe]
    have hpn : platform_name ids (PVal.str (x.take 4)) =
        .ok (platform_name_str ids (x.take 4)) := rfl
    simp [hxt, pySlice4, hpn]
  · intro hx
    rw [resolveHtm, htr, hx]
    rfl
  · intro hx
    rw [resolveHtm, htr, hx]
    rfl

/-- Witness for the amended C6 theorem: scenario C's identifiers — reader
yields `"0200ABCDEF"` for the record mounted at `/Volumes/MBED` with USB
serial `"9999"`. -/
theorem resolveHtm_identity_resolver_witness :
    resolveHtm [("0200", "FRDM-K64F")] (fun _ => PVal.str "0200ABCDEF")
      { mount_point := PVal.str "/Volumes/MBED",
        serial_port := PVal.str "/dev/tty.usbmodem1",
        target_id := PVal.str "9999",
        platform_name := PVal.none } =
    .ok { mount_point := PVal.str "/Volumes/MBED",
          serial_port := PVal.str "/dev/tty.usbmodem1",
          target_id := PVal.str "0200ABCDEF",
          platform_name := PVal.str "FRDM-K64F",
          target_id_usb_id := some (PVal.str "9999"),
          target_id_mbed_htm := some (PVal.str "0200ABCDEF") } := by
  have h := (resolveHtm_identity_resolver [("0200", "FRDM-K64F")]
      (fun _ => PVal.str "0200ABCDEF")
      { mount_point := PVal.str "/Volumes/MBED",
        serial_port := PVal.str "/dev/tty.usbmodem1",
        target_id := PVal.str "9999",
        platform_name := PVal.none } "/Volumes/MBED" rfl (by simp)).1
      "0200ABCDEF" rfl (by simp)
  rw [h]
  rfl
